import Mathlib

/-
Shallow embedding of src/geodesic/stenciled_block.cc (class StenciledBlock
of the Spectrum geodesic mesh code).  The base class GridBlock, the
spherical geometry kernels (SphTriArea, SphTriCenter), the sector
addressing helpers (MaxFaceJ, MaxVertJ, face_index_sector) and the list
helper InList are external to the file; they are kept abstract (structure
fields / function parameters) or, where a claim needs their value,
modelled from the specification and marked as such.
-/

namespace Spectrum

/-- Cartesian 3-vector (GeoVector of the code). -/
def GeoVector : Type := Fin 3 → ℝ

/-- Zero vector (gv_zeros of the code). -/
def gv_zeros : GeoVector := fun _ => 0

/-- Dot product of two GeoVectors (operator* of the code). -/
noncomputable def gvDot (a b : GeoVector) : ℝ := a 0 * b 0 + a 1 * b 1 + a 2 * b 2

/-- The external spherical geometry kernels: spherical triangle area and
spherical triangle center of mass.  Declared outside src/, so they stay
abstract here; ComputeMoments only composes them. -/
structure GeomKernels where
  SphTriArea : GeoVector → GeoVector → GeoVector → ℝ
  SphTriCenter : GeoVector → GeoVector → GeoVector → GeoVector

/-- The per-block data ComputeMoments reads: verts_per_face, the
GEOELM_NEXI bit of face_mask / edge_mask (raised means the element does
not exist), the face-to-vertex table fv_local, the edge-to-vertex table
ev_local and the vertex coordinates block_vert_cart. -/
structure BlockData where
  vpf : ℕ
  face_nexi : ℕ → Bool
  fv_local : ℕ → ℕ → ℕ
  edge_nexi : ℕ → Bool
  ev_local : ℕ → ℕ → ℕ
  block_vert_cart : ℕ → GeoVector

/-- Vertex ic of a face, as block_vert_cart[fv_local[face][ic]]. -/
def fvert (B : BlockData) (face ic : ℕ) : GeoVector :=
  B.block_vert_cart (B.fv_local face ic)

/-- Local variable area1 of ComputeMoments: area of the spherical triangle
on vertices 0, 1, 2 of the face. -/
def area1 (K : GeomKernels) (B : BlockData) (face : ℕ) : ℝ :=
  K.SphTriArea (fvert B face 0) (fvert B face 1) (fvert B face 2)

/-- Local variable area2 of ComputeMoments: 0 for a triangle face, the
area of the spherical triangle on vertices 2, 3, 0 for a quad face. -/
def area2 (K : GeomKernels) (B : BlockData) (face : ℕ) : ℝ :=
  if B.vpf = 3 then 0 else K.SphTriArea (fvert B face 2) (fvert B face 3) (fvert B face 0)

/-- Local variable cm1 of ComputeMoments: center of mass of the spherical
triangle on vertices 0, 1, 2 of the face. -/
def cm1 (K : GeomKernels) (B : BlockData) (face : ℕ) : GeoVector :=
  K.SphTriCenter (fvert B face 0) (fvert B face 1) (fvert B face 2)

/-- Local variable cm2 of ComputeMoments: gv_zeros for a triangle face,
the center of mass of the spherical triangle on vertices 2, 3, 0 for a
quad face. -/
def cm2 (K : GeomKernels) (B : BlockData) (face : ℕ) : GeoVector :=
  if B.vpf = 3 then gv_zeros else K.SphTriCenter (fvert B face 2) (fvert B face 3) (fvert B face 0)

/-- Face part of ComputeMoments for one face: the pair
(face_area[face], face_cmass[face]) it stores.  A face whose GEOELM_NEXI
bit is raised gets (0, gv_zeros) and the vertex data is never read;
otherwise face_area = area1 + area2 and
face_cmass = (cm1 * area1 + cm2 * area2) / face_area, with no guard on
the divisor. -/
noncomputable def computeFaceMoments (K : GeomKernels) (B : BlockData) (face : ℕ) :
    ℝ × GeoVector :=
  if B.face_nexi face then (0, gv_zeros)
  else (area1 K B face + area2 K B face,
        fun i => (area1 K B face * cm1 K B face i + area2 K B face * cm2 K B face i) /
          (area1 K B face + area2 K B face))

/-- Edge part of ComputeMoments for one edge: the new edge_length value,
given the previous contents old of the edge_length array.  The code
writes acos(v1 * v2) when BITS_RAISED(edge_mask[edge], GEOELM_NEXI) and
leaves the slot untouched otherwise. -/
noncomputable def computeEdgeLength (B : BlockData) (old : ℕ → ℝ) (edge : ℕ) : ℝ :=
  if B.edge_nexi edge then
    Real.arccos (gvDot (B.block_vert_cart (B.ev_local edge 0))
                       (B.block_vert_cart (B.ev_local edge 1)))
  else old edge

/-- Area-weighted average of the two sub-triangle centroids, written
from the words of the spec for comparison with the face center of mass
computed by ComputeMoments. -/
noncomputable def areaWeightedAvg (a1 a2 : ℝ) (c1 c2 : GeoVector) : GeoVector :=
  fun i => (a1 * c1 i + a2 * c2 i) / (a1 + a2)

/-- Modelled from the spec: square_fill is a constant of the base sector
class, which is not part of src/.  The spec describes the directional
flanks as the two faces flanking N on either side of the principal face;
with the offset in the code (ic + 4 - square_fill) mod verts_per_face this
forces square_fill = 2 for triangular meshes (offsets ic+1 and ic+2
mod 3) and square_fill = 1 for quadrilateral meshes (offsets ic+1 and
ic+3 mod 4), i.e. the number of faces per addressing square. -/
def square_fill (vpf : ℤ) : ℤ := if vpf = 3 then 2 else 1

/-- Modelled from the spec: InList is a helper declared outside src/ that
finds the position of x among the first n entries of l (the position of
the principal face in the neighbor list), returning -1 when absent. -/
def InList (n : ℤ) (l : ℤ → ℤ) (x : ℤ) : ℤ :=
  match (List.range n.toNat).find? (fun i => l i == x) with
  | some i => (i : ℤ)
  | none => -1

/-- Topological data BuildAllStencils reads: verts_per_face, the
face-to-neighbor-face table ff_local and the GEOELM_STEN bit of
face_mask (raised means the face is in the stenciled region). -/
structure StencilTopo where
  vpf : ℤ
  ff_local : ℤ → ℤ → ℤ
  sten : ℤ → Bool

/-- Central stencil zone list (stencil index 0) of BuildAllStencils for
a principal face pface: each zone is the pair
(stencil_zonelist[pface][0][2 ic], stencil_zonelist[pface][0][2 ic + 1]),
i.e. the verts_per_face neighbors at plane 0 followed by pface at plane
-1 and pface at plane +1. -/
def centralZones (T : StencilTopo) (pface : ℤ) : List (ℤ × ℤ) :=
  ((List.range T.vpf.toNat).map (fun ic => (T.ff_local pface ((ic : ℕ) : ℤ), (0 : ℤ))))
    ++ [(pface, -1), (pface, 1)]

/-- Directional stencil zone list of BuildAllStencils for principal face
pface and side index s (1 ≤ s ≤ verts_per_face); plane is the radial
plane written into the last entry: -1 for the down stencil s, +1 for the
up stencil s + verts_per_face.  Transliterates lines 277-291 of
stenciled_block.cc: nface = ff_local[pface][s-1], ic the position of
pface in the neighbor list of nface, flanks at (ic + 1) mod verts_per_face
and (ic + 4 - square_fill) mod verts_per_face, and the last zone is
nface at the given plane. -/
def directionalZones (T : StencilTopo) (pface s plane : ℤ) : List (ℤ × ℤ) :=
  let nface := T.ff_local pface (s - 1)
  let ic := InList T.vpf (T.ff_local nface) pface
  let f1 := T.ff_local nface ((ic + 1) % T.vpf)
  let f2 := T.ff_local nface ((ic + 4 - square_fill T.vpf) % T.vpf)
  [(nface, 0), (f1, 0), (f2, 0), (nface, plane)]

/-- Zone list built by BuildAllStencils for (pface, stencil): none models
the nullptr slot of a face outside the stenciled region; stencil 0 is the
central stencil, stencils 1..verts_per_face the directional down
stencils, stencils verts_per_face+1..2*verts_per_face the directional up
stencils. -/
def stencil_zonelist (T : StencilTopo) (pface stencil : ℤ) : Option (List (ℤ × ℤ)) :=
  if T.sten pface then
    some (if stencil = 0 then centralZones T pface
          else if stencil ≤ T.vpf then directionalZones T pface stencil (-1)
          else directionalZones T pface (stencil - T.vpf) 1)
  else none

/-- Zone counts set at the top of BuildAllStencils:
zones_per_stencil[0] = verts_per_face + 2 and 4 for every other stencil. -/
def zones_per_stencil (vpf stencil : ℤ) : ℤ :=
  if stencil = 0 then vpf + 2 else 4

/-- Flank offset as written in the spec (section 4.4): the second flank
is selected at local offset
(p + verts_per_face - (verts_per_face == 4 ? 1 : 0)) mod verts_per_face.
Written from the words of the spec for comparison with the formula of the code
(ic + 4 - square_fill) mod verts_per_face. -/
def specFlankOffset (vpf p : ℤ) : ℤ :=
  (p + vpf - (if vpf = 4 then 1 else 0)) % vpf

/-- Radial scale factor of ComputeOneMatrix (the switch on the zone
radial plane): 1 + drp_ratio at plane -1, 1/(1 + drp_ratio) at plane +1,
1 otherwise. -/
noncomputable def rp_factor (drp_ratio : ℝ) (plane : ℤ) : ℝ :=
  if plane = -1 then 1 + drp_ratio
  else if plane = 1 then 1 / (1 + drp_ratio)
  else 1

/-- Geometry matrix A of ComputeOneMatrix as its list of rows: one row
per zone of the stencil zone list, row = rp_factor * face_cmass[zone
face] - face_cmass[pface], componentwise over the 3 Cartesian axes. -/
noncomputable def geom_matr_A (drp_ratio : ℝ) (face_cmass : ℤ → GeoVector)
    (pface : ℤ) (zones : List (ℤ × ℤ)) : List GeoVector :=
  zones.map (fun z => fun col => rp_factor drp_ratio z.2 * face_cmass z.1 col - face_cmass pface col)

/-- Construction phases of a StenciledBlock. -/
inductive Phase where
  | moments
  | marking
  | stencils
  | matrices
  deriving DecidableEq, BEq

/-- Phases run by SetDimensions (called from the constructor): it calls
MarkStenciledArea; stencil zone lists and matrices are only allocated
there, not filled. -/
def SetDimensionsPhases : List Phase := [Phase.marking]

/-- Phases run by AssociateMesh, in call order: BuildAllStencils, then
ComputeMoments, then the ComputeOneMatrix loop. -/
def AssociateMeshPhases : List Phase := [Phase.stencils, Phase.moments, Phase.matrices]

/-- Full construction order: the constructor runs SetDimensions, and the
mesh association runs afterwards. -/
def constructionPhases : List Phase := SetDimensionsPhases ++ AssociateMeshPhases

/-- Integer range lo..hi inclusive, the index set of a C for loop
for(x = lo; x <= hi; x++). -/
def intRange (lo hi : ℤ) : List ℤ :=
  (List.range (hi + 1 - lo).toNat).map (fun k => lo + (k : ℤ))

/-- Sector addressing data MarkStenciledArea reads: total_length,
ghost_width and the external helpers MaxFaceJ, MaxVertJ and
face_index_sector of the base class (outside src/, kept abstract). -/
structure SectorTopo where
  total_length : ℤ
  ghost_width : ℤ
  MaxFaceJ : ℤ × ℤ → ℤ → ℤ → ℤ
  MaxVertJ : ℤ → ℤ → ℤ
  face_index_sector : ℤ → ℤ → ℤ

/-- RAISE_BITS(face_mask[face], GEOELM_STEN) viewed on the STEN bit of
the mask. -/
def RAISE_STEN (mask : ℤ → Bool) (face : ℤ) : ℤ → Bool :=
  fun g => if g = face then true else mask g

/-- LOWER_BITS(face_mask[face], GEOELM_STEN) viewed on the STEN bit of
the mask. -/
def LOWER_STEN (mask : ℤ → Bool) (face : ℤ) : ℤ → Bool :=
  fun g => if g = face then false else mask g

/-- Sequentially raise the STEN bit of every face in the list. -/
def raiseAll (faces : List ℤ) (mask : ℤ → Bool) : ℤ → Bool :=
  faces.foldl RAISE_STEN mask

/-- Sequentially lower the STEN bit of every face in the list. -/
def lowerAll (faces : List ℤ) (mask : ℤ → Bool) : ℤ → Bool :=
  faces.foldl LOWER_STEN mask

/-- Faces visited by the initial interior-plus-one-layer marking loop of
MarkStenciledArea (lines 193-200): i from square_fill*ghost_width to
imax = total_length - ghost_width, j from square_fill*(ghost_width-1) to
MaxFaceJ(base_vert, total_length - square_fill*ghost_width + 1, i). -/
def markFaces (vpf : ℤ) (G : SectorTopo) : List ℤ :=
  let sf := square_fill vpf
  let imax := G.total_length - G.ghost_width
  let base := (sf * (G.ghost_width - 1), G.ghost_width - 1)
  (intRange (sf * G.ghost_width) imax).flatMap (fun i =>
    (intRange (sf * (G.ghost_width - 1))
        (G.MaxFaceJ base (G.total_length - sf * G.ghost_width + 1) i)).map
      (fun j => G.face_index_sector i j))

/-- Faces visited by the south-east corner clipping loop of
MarkStenciledArea (lines 204-211), run only for verts_per_face == 3. -/
def clipSEFaces (vpf : ℤ) (G : SectorTopo) : List ℤ :=
  let sf := square_fill vpf
  let imax := G.total_length - G.ghost_width
  let base := (G.total_length - G.ghost_width - 1, G.ghost_width - 1)
  (intRange (imax - 1) imax).flatMap (fun i =>
    (intRange (sf * (G.ghost_width - 1)) (G.MaxFaceJ base 2 i)).map
      (fun j => G.face_index_sector i j))

/-- Faces visited by the north corner clipping loop of MarkStenciledArea
(lines 214-221), run only for verts_per_face == 3. -/
def clipNFaces (G : SectorTopo) : List ℤ :=
  let imax := G.total_length - G.ghost_width
  let base := (G.total_length - G.ghost_width - 1,
               G.MaxVertJ G.total_length (G.total_length - G.ghost_width - 1) - G.ghost_width + 1)
  (intRange (imax - 1) imax).flatMap (fun i =>
    (intRange (G.MaxFaceJ base 2 (imax - 1)) (G.MaxFaceJ base 2 i)).map
      (fun j => G.face_index_sector i j))

/-- MarkStenciledArea as a transformation of the STEN-bit mask: raise the
bit over the interior-plus-one-layer region, then, only when
verts_per_face == 3, lower it over the south-east corner wedge and then
over the north corner wedge. -/
def MarkStenciledArea (vpf : ℤ) (G : SectorTopo) (mask : ℤ → Bool) : ℤ → Bool :=
  let m1 := raiseAll (markFaces vpf G) mask
  if vpf = 3 then lowerAll (clipNFaces G) (lowerAll (clipSEFaces vpf G) m1) else m1

/-- Concrete triangular-mesh neighbor topology used for concrete
evaluations: face 0 has neighbors 1, 2, 3 and face 1 has neighbors
0, 4, 5; every face is in the stenciled region. -/
def exTopo : StencilTopo where
  vpf := 3
  ff_local := fun f s =>
    if f = 0 then (if s = 0 then 1 else if s = 1 then 2 else 3)
    else if f = 1 then (if s = 0 then 0 else if s = 1 then 4 else 5)
    else 0
  sten := fun _ => true

/-- Concrete quad-mesh neighbor topology: face 0 has neighbors 1, 2, 3, 4
and face 1 has neighbors 0, 5, 6, 7; every face is in the stenciled
region. -/
def exTopo4 : StencilTopo where
  vpf := 4
  ff_local := fun f s =>
    if f = 0 then (if s = 0 then 1 else if s = 1 then 2 else if s = 2 then 3 else 4)
    else if f = 1 then (if s = 0 then 0 else if s = 1 then 5 else if s = 2 then 6 else 7)
    else 0
  sten := fun _ => true

/-- Concrete geometry kernels for concrete evaluations: every triangle
has area 1 and its first vertex as center of mass. -/
noncomputable def exKernels : GeomKernels where
  SphTriArea := fun _ _ _ => 1
  SphTriCenter := fun a _ _ => a

/-- Concrete block whose face 0 exists (NEXI lowered) and face 1 does
not (NEXI raised); vertex v has coordinates (v, 0, 0). -/
noncomputable def exBlock : BlockData where
  vpf := 4
  face_nexi := fun f => decide (f = 1)
  fv_local := fun _ i => i
  edge_nexi := fun _ => false
  ev_local := fun _ i => i
  block_vert_cart := fun v i => if i = 0 then (v : ℝ) else 0

/-- Concrete block for the edge-length loop: edge 0 exists (NEXI
lowered), edge 1 does not (NEXI raised); vertex 0 is the unit x vector
and every other vertex the unit y vector, so the two vertices of any edge are
orthogonal. -/
noncomputable def exEdgeBlock : BlockData where
  vpf := 3
  face_nexi := fun _ => false
  fv_local := fun _ i => i
  edge_nexi := fun e => decide (e = 1)
  ev_local := fun _ i => i
  block_vert_cart := fun v i =>
    if v = 0 then (if i = 0 then 1 else 0) else (if i = 1 then 1 else 0)

/-- Concrete sector topology for concrete evaluations of the marker:
total_length 4, ghost_width 1, MaxFaceJ returning twice the row index
plus the length argument, MaxVertJ the row index, faces numbered
10 i + j. -/
def exSector : SectorTopo where
  total_length := 4
  ghost_width := 1
  MaxFaceJ := fun _ len i => 2 * i + len
  MaxVertJ := fun _ i => i
  face_index_sector := fun i j => 10 * i + j

end Spectrum

namespace Spectrum

/-- Auxiliary: sequentially raising the STEN bit over a list of faces
leaves a face raised exactly when it was already raised or is in the
list. -/
theorem raiseAll_true_iff (faces : List ℤ) (mask : ℤ → Bool) (f : ℤ) :
    raiseAll faces mask f = true ↔ (mask f = true ∨ f ∈ faces) := by
  induction faces generalizing mask with
  | nil => simp [raiseAll]
  | cons a l ih =>
    have h1 : raiseAll (a :: l) mask = raiseAll l (RAISE_STEN mask a) := rfl
    rw [h1, ih]
    by_cases h : f = a <;> simp [RAISE_STEN, h]

/-- Auxiliary: sequentially lowering the STEN bit over a list of faces
leaves a face raised exactly when it was raised and is not in the
list. -/
theorem lowerAll_true_iff (faces : List ℤ) (mask : ℤ → Bool) (f : ℤ) :
    lowerAll faces mask f = true ↔ (mask f = true ∧ ¬ f ∈ faces) := by
  induction faces generalizing mask with
  | nil => simp [lowerAll]
  | cons a l ih =>
    have h1 : lowerAll (a :: l) mask = lowerAll l (LOWER_STEN mask a) := rfl
    rw [h1, ih]
    by_cases h : f = a <;> simp [LOWER_STEN, h]

/-- C9: MarkStenciledArea un-marks faces after the initial
interior-plus-one-layer pass exactly when verts_per_face is 3: for a
quad mesh the final STEN bit of a face is raised exactly when it was
raised before or lies in the marking region (nothing is un-marked),
while for a triangular mesh the faces of the south-east and north corner
wedge regions are additionally un-marked, and nothing else is. -/
theorem c9_region_marking (G : SectorTopo) (mask : ℤ → Bool) (f : ℤ) :
    (MarkStenciledArea 4 G mask f = true ↔ (mask f = true ∨ f ∈ markFaces 4 G)) ∧
    (MarkStenciledArea 3 G mask f = true ↔
      ((mask f = true ∨ f ∈ markFaces 3 G) ∧ ¬ f ∈ clipSEFaces 3 G ∧ ¬ f ∈ clipNFaces G)) := by
  constructor
  · have h4 : MarkStenciledArea 4 G mask = raiseAll (markFaces 4 G) mask := by
      norm_num [MarkStenciledArea]
    rw [h4, raiseAll_true_iff]
  · have h3 : MarkStenciledArea 3 G mask =
        lowerAll (clipNFaces G) (lowerAll (clipSEFaces 3 G) (raiseAll (markFaces 3 G) mask)) := by
      norm_num [MarkStenciledArea]
    rw [h3, lowerAll_true_iff, lowerAll_true_iff, raiseAll_true_iff]
    tauto

/-- C4 counterexample: the first phase of block construction is the
stenciled-region marking (run by SetDimensions from the constructor),
not the moment computation, so the claimed order moments-then-marking is
false on the code. -/
theorem c4_counterexample :
    constructionPhases.head? = some Phase.marking ∧
    Phase.marking ≠ Phase.moments ∧
    constructionPhases[0]? = some Phase.marking ∧
    constructionPhases[2]? = some Phase.moments := by decide

/-- C4 amended: block construction executes region marking first (at
dimension-set time), then stencil build, then moments, then matrix
build; matrices are assembled last, and stencil zone lists are built
after marking. -/
theorem c4_amended_phase_order :
    constructionPhases = [Phase.marking, Phase.stencils, Phase.moments, Phase.matrices] ∧
    constructionPhases.getLast? = some Phase.matrices ∧
    SetDimensionsPhases = [Phase.marking] ∧
    AssociateMeshPhases = [Phase.stencils, Phase.moments, Phase.matrices] := by decide

/-- C1 counterexample: for the eligible principal face 0 of exTopo with
down stencil 1 and up stencil 4, the last zone entry of both variants is
face 1 (the across-side neighbor) at planes -1 and +1, not the principal
face 0, so the claim that the last entry references the principal face
itself is false on the code. -/
theorem c1_counterexample :
    exTopo.sten 0 = true ∧
    stencil_zonelist exTopo 0 1 = some [(1, 0), (4, 0), (5, 0), (1, -1)] ∧
    stencil_zonelist exTopo 0 4 = some [(1, 0), (4, 0), (5, 0), (1, 1)] ∧
    ((1 : ℤ) ≠ (0 : ℤ)) := by decide

/-- C1 amended: for every eligible face and every directional stencil
pair (down index s, up index s + verts_per_face), the zone list has
exactly 4 zones, the first 3 zone entries are identical between the two
variants, and the last entry of both variants references the across-side
neighbor face (the same face as the first zone entry) at plane -1 for
the down variant and plane +1 for the up variant. -/
theorem c1_amended_directional_pair (T : StencilTopo) (pface s : ℤ)
    (hs : T.sten pface = true) (h1 : 1 ≤ s) (h2 : s ≤ T.vpf) :
    ∃ down up : List (ℤ × ℤ),
      stencil_zonelist T pface s = some down ∧
      stencil_zonelist T pface (s + T.vpf) = some up ∧
      (down.length : ℤ) = zones_per_stencil T.vpf s ∧
      zones_per_stencil T.vpf s = 4 ∧
      (up.length : ℤ) = zones_per_stencil T.vpf (s + T.vpf) ∧
      down.take 3 = up.take 3 ∧
      down.head? = some (T.ff_local pface (s - 1), 0) ∧
      down.getLast? = some (T.ff_local pface (s - 1), -1) ∧
      up.getLast? = some (T.ff_local pface (s - 1), 1) := by
  have hs0 : ¬ s = 0 := by omega
  have hsv : ¬ (s + T.vpf = 0) := by omega
  have hsv2 : ¬ (s + T.vpf ≤ T.vpf) := by omega
  refine ⟨directionalZones T pface s (-1), directionalZones T pface s 1,
    ?_, ?_, ?_, ?_, ?_, ?_, ?_, ?_, ?_⟩
  · simp [stencil_zonelist, hs, hs0, h2]
  · have he : s + T.vpf - T.vpf = s := by ring
    simp [stencil_zonelist, hs, hsv, hsv2, he]
  · simp [directionalZones, zones_per_stencil, hs0]
  · simp [zones_per_stencil, hs0]
  · simp [directionalZones, zones_per_stencil, hsv]
  · rfl
  · rfl
  · rfl
  · rfl

/-- C1 witness: the amended directional-pair property evaluated at the
concrete topology exTopo, principal face 0, side stencil 1. -/
theorem c1_amended_witness :
    ∃ down up : List (ℤ × ℤ),
      stencil_zonelist exTopo 0 1 = some down ∧
      stencil_zonelist exTopo 0 (1 + exTopo.vpf) = some up ∧
      (down.length : ℤ) = zones_per_stencil exTopo.vpf 1 ∧
      zones_per_stencil exTopo.vpf 1 = 4 ∧
      (up.length : ℤ) = zones_per_stencil exTopo.vpf (1 + exTopo.vpf) ∧
      down.take 3 = up.take 3 ∧
      down.head? = some (exTopo.ff_local 0 (1 - 1), 0) ∧
      down.getLast? = some (exTopo.ff_local 0 (1 - 1), -1) ∧
      up.getLast? = some (exTopo.ff_local 0 (1 - 1), 1) :=
  c1_amended_directional_pair exTopo 0 1 (by decide) (by decide) (by decide)

end Spectrum

namespace Spectrum

/-- C3 counterexample: at the concrete triangular topology exTopo,
principal face 0, side stencil 1 (neighbor face 1, position p = 0 in the
neighbor list of face 1), the code selects the second flank at offset
(p + 4 - square_fill) mod 3 = 2, giving face 5, while the formula of the
spec selects offset (p + 3 - 0) mod 3 = 0, giving face 0 (the principal
face itself); the two differ, so the claimed offset formula is false on
the code for verts_per_face = 3. -/
theorem c3_counterexample :
    exTopo.sten 0 = true ∧
    ((stencil_zonelist exTopo 0 1).getD [])[2]? = some ((5 : ℤ), (0 : ℤ)) ∧
    exTopo.ff_local 1 (specFlankOffset exTopo.vpf (InList exTopo.vpf (exTopo.ff_local 1) 0)) = 0 ∧
    ((5 : ℤ) ≠ (0 : ℤ)) := by decide

/-- C3 amended: for every eligible principal face and side s, the two
flanking zones of the directional stencil are the neighbors of the
across-side face N at local offsets (p+1) mod verts_per_face and
(p + 4 - square_fill) mod verts_per_face within the neighbor list of N,
where p is the position of the principal face in that list and
square_fill is 1 for quad meshes and 2 for triangular meshes; the second
offset therefore equals (p + 3) mod 4 for quads, matching the formula of
the spec, and (p + 2) mod 3 for triangles, where the formula of the spec
would give p itself. -/
theorem c3_amended_flank_offsets (T : StencilTopo) (pface s : ℤ)
    (hs : T.sten pface = true) (h1 : 1 ≤ s) (h2 : s ≤ T.vpf)
    (hv : T.vpf = 3 ∨ T.vpf = 4) :
    ∃ zones : List (ℤ × ℤ),
      stencil_zonelist T pface s = some zones ∧
      zones[1]? = some (T.ff_local (T.ff_local pface (s - 1))
        ((InList T.vpf (T.ff_local (T.ff_local pface (s - 1))) pface + 1) % T.vpf), 0) ∧
      zones[2]? = some (T.ff_local (T.ff_local pface (s - 1))
        ((InList T.vpf (T.ff_local (T.ff_local pface (s - 1))) pface +
          (if T.vpf = 4 then 3 else 2)) % T.vpf), 0) ∧
      (∀ p : ℤ, T.vpf = 4 → (p + 3) % 4 = specFlankOffset 4 p) := by
  have hs0 : ¬ s = 0 := by omega
  refine ⟨directionalZones T pface s (-1), ?_, ?_, ?_, ?_⟩
  · simp [stencil_zonelist, hs, hs0, h2]
  · rfl
  · rcases hv with h | h
    · have hsf : square_fill T.vpf = 2 := by simp [square_fill, h]
      have h4 : ¬ T.vpf = 4 := by omega
      simp only [directionalZones, hsf, h4, if_false]
      ring_nf
      rfl
    · have hsf : square_fill T.vpf = 1 := by norm_num [square_fill, h]
      simp only [directionalZones, hsf, h, if_true]
      norm_num [square_fill]
      ring_nf
  · intro p h
    norm_num [specFlankOffset]
    omega

/-- C3 witness: the amended flank-offset property evaluated at the
concrete quad topology exTopo4, principal face 0, side stencil 1. -/
theorem c3_amended_witness :
    ∃ zones : List (ℤ × ℤ),
      stencil_zonelist exTopo4 0 1 = some zones ∧
      zones[1]? = some (exTopo4.ff_local (exTopo4.ff_local 0 (1 - 1))
        ((InList exTopo4.vpf (exTopo4.ff_local (exTopo4.ff_local 0 (1 - 1))) 0 + 1) % exTopo4.vpf), 0) ∧
      zones[2]? = some (exTopo4.ff_local (exTopo4.ff_local 0 (1 - 1))
        ((InList exTopo4.vpf (exTopo4.ff_local (exTopo4.ff_local 0 (1 - 1))) 0 +
          (if exTopo4.vpf = 4 then 3 else 2)) % exTopo4.vpf), 0) ∧
      (∀ p : ℤ, exTopo4.vpf = 4 → (p + 3) % 4 = specFlankOffset 4 p) :=
  c3_amended_flank_offsets exTopo4 0 1 (by decide) (by decide) (by decide) (Or.inr rfl)

/-- C5: for every eligible face the central stencil (index 0) has
exactly verts_per_face + 2 zones, its first verts_per_face entries are
the edge-adjacent neighbor faces each at plane 0, and its last two
entries are the principal face at plane -1 and at plane +1, in that
order. -/
theorem c5_central_stencil (T : StencilTopo) (pface : ℤ)
    (hs : T.sten pface = true) (hv : T.vpf = 3 ∨ T.vpf = 4) :
    ∃ zones : List (ℤ × ℤ),
      stencil_zonelist T pface 0 = some zones ∧
      (zones.length : ℤ) = zones_per_stencil T.vpf 0 ∧
      zones_per_stencil T.vpf 0 = T.vpf + 2 ∧
      (∀ ic : ℕ, (ic : ℤ) < T.vpf → zones[ic]? = some (T.ff_local pface ic, 0)) ∧
      zones[T.vpf.toNat]? = some (pface, -1) ∧
      zones[T.vpf.toNat + 1]? = some (pface, 1) := by
  refine ⟨centralZones T pface, by simp [stencil_zonelist, hs], ?_, by simp [zones_per_stencil], ?_, ?_, ?_⟩
  · have hl : (centralZones T pface).length = T.vpf.toNat + 2 := by
      rw [centralZones, List.length_append, List.length_map, List.length_range]
      rfl
    rw [hl]
    rcases hv with h | h <;> norm_num [zones_per_stencil, h]
  · intro ic hic
    rcases hv with h | h
    · rw [h] at hic
      have hic3 : ic < 3 := by omega
      have hc : centralZones T pface =
          [(T.ff_local pface 0, 0), (T.ff_local pface 1, 0), (T.ff_local pface 2, 0),
           (pface, -1), (pface, 1)] := by
        simp [centralZones, h, List.range_succ]
      interval_cases ic <;> simp [hc]
    · rw [h] at hic
      have hic4 : ic < 4 := by omega
      have hc : centralZones T pface =
          [(T.ff_local pface 0, 0), (T.ff_local pface 1, 0), (T.ff_local pface 2, 0),
           (T.ff_local pface 3, 0), (pface, -1), (pface, 1)] := by
        simp [centralZones, h, List.range_succ]
      interval_cases ic <;> simp [hc]
  · rcases hv with h | h <;>
      · have h2 : T.vpf.toNat = T.vpf.toNat := rfl
        rw [h]
        simp [centralZones, h, List.range_succ]
  · rcases hv with h | h <;>
      · rw [h]
        simp [centralZones, h, List.range_succ]

/-- C5 witness: the central stencil property evaluated at the concrete
triangular topology exTopo, principal face 0. -/
theorem c5_witness :
    ∃ zones : List (ℤ × ℤ),
      stencil_zonelist exTopo 0 0 = some zones ∧
      (zones.length : ℤ) = zones_per_stencil exTopo.vpf 0 ∧
      zones_per_stencil exTopo.vpf 0 = exTopo.vpf + 2 ∧
      (∀ ic : ℕ, (ic : ℤ) < exTopo.vpf → zones[ic]? = some (exTopo.ff_local 0 ic, 0)) ∧
      zones[exTopo.vpf.toNat]? = some (0, -1) ∧
      zones[exTopo.vpf.toNat + 1]? = some (0, 1) :=
  c5_central_stencil exTopo 0 (by decide) (Or.inl rfl)

end Spectrum

namespace Spectrum

/-- C6: for every zone row of every stencil geometry matrix, the radial
scale factor is 1 + r at plane -1, 1/(1 + r) at plane +1 and 1 at plane
0, the down and up factors multiply to 1 for any r > 0, and each matrix
row equals scale times the zone center of mass minus the principal
center of mass, componentwise over the 3 Cartesian axes. -/
theorem c6_radial_scaling (r : ℝ) (hr : 0 < r) :
    rp_factor r (-1) = 1 + r ∧
    rp_factor r 1 = 1 / (1 + r) ∧
    rp_factor r 0 = 1 ∧
    rp_factor r (-1) * rp_factor r 1 = 1 ∧
    ∀ (face_cmass : ℤ → GeoVector) (pface : ℤ) (zones : List (ℤ × ℤ)) (row : ℕ) (col : Fin 3),
      ((geom_matr_A r face_cmass pface zones)[row]?).map (fun v => v col) =
        (zones[row]?).map
          (fun z => rp_factor r z.2 * face_cmass z.1 col - face_cmass pface col) := by
  have h1 : rp_factor r (-1) = 1 + r := by simp [rp_factor]
  have h2 : rp_factor r 1 = 1 / (1 + r) := by norm_num [rp_factor]
  have h3 : rp_factor r 0 = 1 := by norm_num [rp_factor]
  have hne : (1 + r) ≠ 0 := by linarith
  refine ⟨h1, h2, h3, ?_, ?_⟩
  · rw [h1, h2]
    field_simp
  · intro fc p zones row col
    simp only [geom_matr_A, List.getElem?_map]
    cases h : zones[row]? <;> simp

/-- C6 witness: the radial scaling property evaluated at the concrete
ratio r = 1. -/
theorem c6_witness :
    rp_factor 1 (-1) = 1 + 1 ∧
    rp_factor 1 1 = 1 / (1 + 1) ∧
    rp_factor 1 0 = 1 ∧
    rp_factor 1 (-1) * rp_factor 1 1 = 1 ∧
    ∀ (face_cmass : ℤ → GeoVector) (pface : ℤ) (zones : List (ℤ × ℤ)) (row : ℕ) (col : Fin 3),
      ((geom_matr_A 1 face_cmass pface zones)[row]?).map (fun v => v col) =
        (zones[row]?).map
          (fun z => rp_factor 1 z.2 * face_cmass z.1 col - face_cmass pface col) :=
  c6_radial_scaling 1 (by norm_num)

/-- C7: a face whose existence flag is not raised (GEOELM_NEXI raised)
gets area 0 and the zero center of mass as a defined default, for every
choice of geometry kernels, vertex coordinates and vertex tables, so no
error is signalled and the vertex data of the face is never read. -/
theorem c7_nonexistent_face_defaults (K : GeomKernels) (B : BlockData) (face : ℕ)
    (h : B.face_nexi face = true) :
    computeFaceMoments K B face = (0, gv_zeros) ∧
    ∀ (K2 : GeomKernels) (vc : ℕ → GeoVector) (fv : ℕ → ℕ → ℕ),
      computeFaceMoments K2 { B with block_vert_cart := vc, fv_local := fv } face
        = (0, gv_zeros) := by
  constructor
  · simp [computeFaceMoments, h]
  · intro K2 vc fv
    simp [computeFaceMoments, h]

/-- C7 witness: the nonexistent-face default evaluated at the concrete
block exBlock, whose face 1 has its GEOELM_NEXI bit raised. -/
theorem c7_witness :
    computeFaceMoments exKernels exBlock 1 = (0, gv_zeros) ∧
    ∀ (K2 : GeomKernels) (vc : ℕ → GeoVector) (fv : ℕ → ℕ → ℕ),
      computeFaceMoments K2 { exBlock with block_vert_cart := vc, fv_local := fv } 1
        = (0, gv_zeros) :=
  c7_nonexistent_face_defaults exKernels exBlock 1 rfl

/-- C8: for an existing quadrilateral face the reported area is exactly
the sum of the areas of the two spherical sub-triangles on vertices
0-1-2 and 2-3-0, and the reported center of mass is exactly the
area-weighted average of the two sub-triangle centroids. -/
theorem c8_quad_moments (K : GeomKernels) (B : BlockData) (face : ℕ)
    (hv : B.vpf = 4) (h : B.face_nexi face = false) :
    (computeFaceMoments K B face).1 =
      K.SphTriArea (fvert B face 0) (fvert B face 1) (fvert B face 2) +
      K.SphTriArea (fvert B face 2) (fvert B face 3) (fvert B face 0) ∧
    (computeFaceMoments K B face).2 =
      areaWeightedAvg
        (K.SphTriArea (fvert B face 0) (fvert B face 1) (fvert B face 2))
        (K.SphTriArea (fvert B face 2) (fvert B face 3) (fvert B face 0))
        (K.SphTriCenter (fvert B face 0) (fvert B face 1) (fvert B face 2))
        (K.SphTriCenter (fvert B face 2) (fvert B face 3) (fvert B face 0)) := by
  have h3 : ¬ B.vpf = 3 := by omega
  constructor
  · simp [computeFaceMoments, h, area1, area2, h3]
  · funext i
    simp [computeFaceMoments, h, area1, area2, cm1, cm2, h3, areaWeightedAvg]

/-- C8 witness: the quad moment property evaluated at the concrete
kernels exKernels and block exBlock, whose face 0 exists and has
verts_per_face = 4. -/
theorem c8_witness :
    (computeFaceMoments exKernels exBlock 0).1 =
      exKernels.SphTriArea (fvert exBlock 0 0) (fvert exBlock 0 1) (fvert exBlock 0 2) +
      exKernels.SphTriArea (fvert exBlock 0 2) (fvert exBlock 0 3) (fvert exBlock 0 0) ∧
    (computeFaceMoments exKernels exBlock 0).2 =
      areaWeightedAvg
        (exKernels.SphTriArea (fvert exBlock 0 0) (fvert exBlock 0 1) (fvert exBlock 0 2))
        (exKernels.SphTriArea (fvert exBlock 0 2) (fvert exBlock 0 3) (fvert exBlock 0 0))
        (exKernels.SphTriCenter (fvert exBlock 0 0) (fvert exBlock 0 1) (fvert exBlock 0 2))
        (exKernels.SphTriCenter (fvert exBlock 0 2) (fvert exBlock 0 3) (fvert exBlock 0 0)) :=
  c8_quad_moments exKernels exBlock 0 rfl rfl

/-- C10: for an existing face the stored area is area1 + area2 and,
whenever that total area is nonzero, the stored center of mass times the
area recovers the weighted centroid sum, so the division is
well-defined; moreover the code applies the quotient unconditionally for
every existing face (no guard against a zero divisor exists). -/
theorem c10_unguarded_division (K : GeomKernels) (B : BlockData) (face : ℕ)
    (h : B.face_nexi face = false)
    (hnz : area1 K B face + area2 K B face ≠ 0) :
    (computeFaceMoments K B face).1 = area1 K B face + area2 K B face ∧
    (∀ i, (computeFaceMoments K B face).2 i * (computeFaceMoments K B face).1 =
      area1 K B face * cm1 K B face i + area2 K B face * cm2 K B face i) ∧
    ∀ (K2 : GeomKernels) (B2 : BlockData) (f2 : ℕ), B2.face_nexi f2 = false →
      (computeFaceMoments K2 B2 f2).2 = fun i =>
        (area1 K2 B2 f2 * cm1 K2 B2 f2 i + area2 K2 B2 f2 * cm2 K2 B2 f2 i) /
          (area1 K2 B2 f2 + area2 K2 B2 f2) := by
  refine ⟨by simp [computeFaceMoments, h], ?_, ?_⟩
  · intro i
    simp only [computeFaceMoments, h, Bool.false_eq_true, if_false]
    exact div_mul_cancel₀ _ hnz
  · intro K2 B2 f2 h2
    simp [computeFaceMoments, h2]

/-- C10 witness: the unguarded-division property evaluated at the
concrete kernels exKernels and block exBlock at face 0, whose total area
is 1 + 1 = 2. -/
theorem c10_witness :
    (computeFaceMoments exKernels exBlock 0).1 =
      area1 exKernels exBlock 0 + area2 exKernels exBlock 0 ∧
    (∀ i, (computeFaceMoments exKernels exBlock 0).2 i *
        (computeFaceMoments exKernels exBlock 0).1 =
      area1 exKernels exBlock 0 * cm1 exKernels exBlock 0 i +
      area2 exKernels exBlock 0 * cm2 exKernels exBlock 0 i) ∧
    ∀ (K2 : GeomKernels) (B2 : BlockData) (f2 : ℕ), B2.face_nexi f2 = false →
      (computeFaceMoments K2 B2 f2).2 = fun i =>
        (area1 K2 B2 f2 * cm1 K2 B2 f2 i + area2 K2 B2 f2 * cm2 K2 B2 f2 i) /
          (area1 K2 B2 f2 + area2 K2 B2 f2) :=
  c10_unguarded_division exKernels exBlock 0 rfl
    (by norm_num [area1, area2, exKernels, exBlock])

/-- C2: the edge loop of ComputeMoments tests the GEOELM_NEXI
(non-existence) bit the wrong way round: at the concrete block
exEdgeBlock, edge 0, whose existence flag is raised (NEXI lowered) and
whose stored length is 7, is left untouched instead of receiving the arc
length arccos 0 = pi/2 of its orthogonal unit vertex vectors, while the
non-existent edge 1 is overwritten with that arc length. -/
theorem c2_inverted_edge_flag :
    computeEdgeLength exEdgeBlock (fun _ => 7) 0 = 7 ∧
    computeEdgeLength exEdgeBlock (fun _ => 7) 1 = Real.pi / 2 ∧
    Real.pi / 2 ≠ 7 := by
  refine ⟨?_, ?_, ?_⟩
  · have hb0 : exEdgeBlock.edge_nexi 0 = false := rfl
    simp [computeEdgeLength, hb0]
  · have hdot : gvDot (exEdgeBlock.block_vert_cart (exEdgeBlock.ev_local 1 0))
        (exEdgeBlock.block_vert_cart (exEdgeBlock.ev_local 1 1)) = 0 := by
      norm_num [gvDot, exEdgeBlock]
      decide
    have hb : exEdgeBlock.edge_nexi 1 = true := rfl
    simp only [computeEdgeLength, hb, if_true, hdot, Real.arccos_zero]
  · intro hEq
    have hpi := Real.pi_lt_d2
    nlinarith

end Spectrum
